import Mathlib

/-!
Verification of the LDraw packer core (`src/index.js`): the path resolver,
the reference-graph walker (`parseObject`) and the packer (`packLDrawModel`).

The filesystem is modelled as a finite association list from absolute path to
file content; `FS.read` plays the role of `fs.readFileSync` (returning `none`
where the source throws).  JavaScript string truthiness (`!s` is true for both
`null` and `""`) is modelled by `jsFalsy` on `Option String`.  The unbounded
recursion of `parseObject` is modelled with a fuel parameter; exhausting the
fuel yields `none` at the outer `Option` layer, standing for the stack
overflow a cyclic model would cause in the source.  No other behaviour is
attached to the fuel: for every terminating run of the source there is a fuel
making the model return `some` of the corresponding result.

JavaScript string methods are modelled by structurally recursive functions on
the character list of a `String`, so every model function evaluates inside
the kernel.
-/

deriving instance DecidableEq for Except

/-! ### String primitives -/

/-- Is the first list a leading segment of the second? -/
def leadSeg : List Char → List Char → Bool
  | [], _ => true
  | _ :: _, [] => false
  | a :: as, b :: bs => a == b && leadSeg as bs

/-- JS `s.startsWith(pat)`. -/
def jsStartsWith (s pat : String) : Bool :=
  leadSeg pat.data s.data

/-- JS `s.endsWith(pat)`. -/
def jsEndsWith (s pat : String) : Bool :=
  leadSeg pat.data.reverse s.data.reverse

/-- JS `s.toLowerCase()` (on the ASCII names the packer handles). -/
def jsToLower (s : String) : String :=
  String.mk (s.data.map Char.toLower)

/-- JS `s.trim()`: strip whitespace from both ends. -/
def jsTrim (s : String) : String :=
  String.mk (((s.data.dropWhile Char.isWhitespace).reverse.dropWhile
    Char.isWhitespace).reverse)

/-- JS `s.substring(n)` for ASCII content: drop the first `n` characters. -/
def jsDrop (s : String) (n : Nat) : String :=
  String.mk (s.data.drop n)

/-- Worker for `jsReplace`: left-to-right, non-overlapping replacement of
`pat` by `rep`; `skip` counts pattern characters still to be consumed after
a match was emitted (structural recursion on the text). -/
def replaceGo (pat rep : List Char) : List Char → Nat → List Char
  | [], _ => []
  | _ :: cs, k + 1 => replaceGo pat rep cs k
  | c :: cs, 0 =>
    if leadSeg pat (c :: cs) then
      rep ++ replaceGo pat rep cs (pat.length - 1)
    else
      c :: replaceGo pat rep cs 0

/-- JS `s.replace(/pat/g, rep)` for a non-empty literal pattern. -/
def jsReplace (s pat rep : String) : String :=
  String.mk (replaceGo pat.data rep.data s.data 0)

/-- Worker for `jsSplitNl`: split a character list at a separator character. -/
def splitCharGo (sep : Char) : List Char → List (List Char)
  | [] => [[]]
  | c :: cs =>
    match splitCharGo sep cs with
    | [] => [[]]
    | g :: gs => if c == sep then [] :: g :: gs else (c :: g) :: gs

/-- JS `s.split('\n')`. -/
def jsSplitNl (s : String) : List String :=
  (splitCharGo '\n' s.data).map String.mk

/-- Worker for `jsWords`: maximal runs of non-whitespace characters
(`cur` is the current run, reversed). -/
def wordsGo : List Char → List Char → List (List Char)
  | [], cur => if cur.isEmpty then [] else [cur.reverse]
  | c :: cs, cur =>
    if c.isWhitespace then
      if cur.isEmpty then wordsGo cs [] else cur.reverse :: wordsGo cs []
    else
      wordsGo cs (c :: cur)

/-- JS `s.trim().split(/\s+/)` on the lines the packer tokenises: the list of
maximal whitespace-free runs.  (On the empty string JS returns `[""]` and this
returns `[]`; both have length below every bound the source tests.) -/
def jsWords (s : String) : List String :=
  (wordsGo s.data []).map String.mk

/-! ### Data model -/

/-- A filesystem: finite map from absolute path to file content. -/
abbrev FS := List (String × String)

/-- `fs.readFileSync p` : `some` content when the path exists, `none` for a throw. -/
def FS.read (fs : FS) (p : String) : Option String :=
  match fs.find? (fun e => e.1 == p) with
  | some e => some e.2
  | none => none

/-- JavaScript truthiness test used by the source on string-or-null values:
`null` and the empty string are falsy. -/
def jsFalsy : Option String → Bool
  | none => true
  | some s => s == ""

/-- Model of Node's `path.join` on the shapes used by the source
(the second argument is appended, inserting a slash when needed). -/
def pathJoin (a b : String) : String :=
  if a = "" then b
  else if jsEndsWith a "/" then a ++ b
  else a ++ "/" ++ b

/-- Three-argument `path.join`, as in `path.join(ldrawPath, prefixDir, fileName)`. -/
def pathJoin3 (a b c : String) : String :=
  pathJoin (pathJoin a b) c

/-- The mutable `pathMap` object of the source: an association list, latest
binding first (`PathMap.set` shadows older bindings as JS assignment does). -/
def PathMap.get (m : List (String × String)) (k : String) : String :=
  match m.find? (fun e => e.1 == k) with
  | some e => e.2
  | none => ""

/-- `pathMap[k] = v`. -/
def PathMap.set (m : List (String × String)) (k v : String) :
    List (String × String) :=
  (k, v) :: m

/-- The four accumulators threaded through `parseObject`
(src/index.js lines 137-140). -/
structure PackState where
  objectsPaths : List String
  objectsContents : List String
  pathMap : List (String × String)
  listOfNotFound : List String
deriving DecidableEq

/-- Result of the library-search loop of `parseObject`
(src/index.js lines 186-234): the final values of the mutable variables
`objectContent`, `prefix` and `fileName`, and whether the not-found push of
line 227 ran. -/
structure SearchOut where
  content : Option String
  pfx : String
  name : String
  pushed : Bool
deriving DecidableEq

/-! ### Path resolver -/

/-- One pass of the search loop (one value of `attempt`, src/index.js
lines 188-232): four read attempts in order — no prefixed directory, then
`parts/`, `p/`, `models/` — returning the content together with the final
value of the `prefix` variable.  Note lines 194-198: when the name starts
with `48/` (resp. `s/`) the `prefix` variable is preset to `p/`
(resp. `parts/`) although the first read attempt itself uses no prefix. -/
def tryAttempt (fs : FS) (lp fileName : String) : Option (String × String) :=
  let pfx0 := if jsStartsWith fileName "48/" then "p/"
              else if jsStartsWith fileName "s/" then "parts/"
              else ""
  match FS.read fs (pathJoin lp fileName) with
  | some content => some (content, pfx0)
  | none =>
    match FS.read fs (pathJoin3 lp "parts/" fileName) with
    | some content => some (content, "parts/")
    | none =>
      match FS.read fs (pathJoin3 lp "p/" fileName) with
      | some content => some (content, "p/")
      | none =>
        match FS.read fs (pathJoin3 lp "models/" fileName) with
        | some content => some (content, "models/")
        | none => none

/-- The whole two-pass search loop (src/index.js lines 187-233): the second
pass runs on the lowercased name, and only when the first pass failed; after a
fully failed second pass the mutable variables hold `prefix = "models/"` and
the lowercased name, and line 227 has pushed the original name. -/
def searchLib (fs : FS) (lp fileName : String) : SearchOut :=
  match tryAttempt fs lp fileName with
  | some (c, p) => { content := some c, pfx := p, name := fileName, pushed := false }
  | none =>
    match tryAttempt fs lp (jsToLower fileName) with
    | some (c, p) =>
        { content := some c, pfx := p, name := jsToLower fileName, pushed := false }
    | none =>
        { content := none, pfx := "models/", name := jsToLower fileName, pushed := true }

/-- The sequence of paths actually passed to `fs.readFileSync` by the search
loop during one pass, in order (instrumentation of `tryAttempt`). -/
def attemptReads (fs : FS) (lp name : String) : List String :=
  match FS.read fs (pathJoin lp name) with
  | some _ => [pathJoin lp name]
  | none =>
    match FS.read fs (pathJoin3 lp "parts/" name) with
    | some _ => [pathJoin lp name, pathJoin3 lp "parts/" name]
    | none =>
      match FS.read fs (pathJoin3 lp "p/" name) with
      | some _ =>
        [pathJoin lp name, pathJoin3 lp "parts/" name, pathJoin3 lp "p/" name]
      | none =>
        [pathJoin lp name, pathJoin3 lp "parts/" name, pathJoin3 lp "p/" name,
         pathJoin3 lp "models/" name]

/-- The sequence of paths passed to `fs.readFileSync` by the whole two-pass
search loop, in order (instrumentation of `searchLib`). -/
def searchReads (fs : FS) (lp name : String) : List String :=
  attemptReads fs lp name ++
    match tryAttempt fs lp name with
    | some _ => []
    | none => attemptReads fs lp (jsToLower name)

/-- Modelled from the spec claim (C2): the four candidate locations, in the
order the spec lists them. -/
def candidatePaths (lp name : String) : List String :=
  [pathJoin lp name, pathJoin3 lp "parts/" name, pathJoin3 lp "p/" name,
   pathJoin3 lp "models/" name]

/-- Modelled from the spec claim (C2): read candidates in order, stopping at
(and including) the first readable one. -/
def readsThroughFirstHit (fs : FS) : List String → List String
  | [] => []
  | p :: ps =>
    if (FS.read fs p).isSome then [p] else p :: readsThroughFirstHit fs ps

/-- Modelled from the spec claim (C2): the read attempts the spec prescribes —
the candidate sequence for the original name, followed by the candidate
sequence for the lowercased name exactly when every original-case candidate
failed. -/
def specSearchReads (fs : FS) (lp name : String) : List String :=
  readsThroughFirstHit fs (candidatePaths lp name) ++
    (if (candidatePaths lp name).all (fun p => (FS.read fs p).isNone) then
      readsThroughFirstHit fs (candidatePaths lp (jsToLower name))
    else [])

/-! ### Reference graph walker -/

/-- Leading space/tab stripping (src/index.js lines 253-259). -/
def stripLead (s : String) : String :=
  String.mk (s.data.dropWhile (fun c => c == ' ' || c == '\t'))

/-- `line.trim().split(/\s+/)` on a placement line (src/index.js line 284). -/
def tokensOf (line : String) : List String :=
  jsWords line

/-- `tokens.slice(14).join(' ').trim().replace(/\\/g, '/')`
(src/index.js line 287). -/
def subNameOf (line : String) : String :=
  jsReplace (jsTrim (String.intercalate " " ((tokensOf line).drop 14))) "\\" "/"

/-- `line.substring(7).trim().replace(/\\/g, '/')` (src/index.js line 268). -/
def declNameOf (line : String) : String :=
  jsReplace (jsTrim (jsDrop line 7)) "\\" "/"

/-- The line-scan loop of `parseObject` (src/index.js lines 249-300),
parameterised by the recursive walker used on placement lines.  Arguments:
remaining lines, current line index `i`, `isRoot`, the
`processedObjectContent` accumulator, and the shared state. -/
def processLinesF (walk : String → PackState → Option (Option String × PackState)) :
    List String → Nat → Bool → String → PackState → Option (String × PackState)
  | [], _, _, acc, st => some (acc, st)
  | rawLine :: rest, i, isRoot, acc, st =>
    let line := stripLead rawLine
    if jsStartsWith line "0 FILE " then
      -- src/index.js lines 263-280
      if i == 0 then
        processLinesF walk rest (i + 1) isRoot acc st
      else
        let sub := declNameOf line
        let st' :=
          if sub ≠ "" ∧ PathMap.get st.pathMap sub = "" then
            { st with pathMap := PathMap.set st.pathMap sub sub }
          else st
        processLinesF walk rest (i + 1) isRoot (acc ++ line ++ "\n") st'
    else if jsStartsWith line "1 " then
      -- src/index.js lines 282-299
      if (tokensOf line).length ≥ 15 then
        let sub := subNameOf line
        if sub ≠ "" ∧ PathMap.get st.pathMap sub = "" then
          match walk sub st with
          | none => none
          | some (subPath, st') =>
            let st'' :=
              match subPath with
              | some p =>
                  if p = "" then st'
                  else { st' with pathMap := PathMap.set st'.pathMap sub p }
              | none => st'
            processLinesF walk rest (i + 1) isRoot (acc ++ line ++ "\n") st''
        else
          processLinesF walk rest (i + 1) isRoot (acc ++ line ++ "\n") st
      else
        processLinesF walk rest (i + 1) isRoot (acc ++ line ++ "\n") st
    else
      processLinesF walk rest (i + 1) isRoot (acc ++ line ++ "\n") st

/-- The resolution stage of one `parseObject` call (src/index.js lines
171-234): the direct root read, the two-pass library search and the
not-found push, producing the final values of the mutable variables and the
updated state. -/
def resolveStage (fs : FS) (lp fileName : String) (isRoot : Bool)
    (st : PackState) : SearchOut × PackState :=
  -- lines 176-183: a root file is first read directly from the given path
  let rootContent : Option String := if isRoot then FS.read fs fileName else none
  -- line 186: the library search runs whenever `objectContent` is falsy
  let so : SearchOut :=
    if jsFalsy rootContent then
      let s0 := searchLib fs lp fileName
      { s0 with
        content := match s0.content with | some c => some c | none => rootContent }
    else
      { content := rootContent, pfx := "", name := fileName, pushed := false }
  -- line 227: on a fully failed second pass the original-case name is pushed
  let st1 : PackState :=
    if so.pushed then
      { st with listOfNotFound := st.listOfNotFound ++ [fileName] }
    else st
  (so, st1)

/-- The closing stage of one `parseObject` call (src/index.js lines
302-305): given the file's canonical path and the outcome of the line scan,
append the file's own document after those of its children (post-order). -/
def finishDoc (objectPath : String) :
    Option (String × PackState) → Option (Option String × PackState)
  | none => none
  | some (processed, st2) =>
    some (some objectPath,
      { st2 with
        objectsPaths := st2.objectsPaths ++ [objectPath],
        objectsContents := st2.objectsContents ++ [processed] })

/-- The body of `parseObject` (src/index.js lines 168-306) for one call,
parameterised by the walker used for recursive calls.  Returns `none` only
when the recursive walker does. -/
def parseObjectBody (fs : FS) (lp : String)
    (walk : String → PackState → Option (Option String × PackState))
    (fileName : String) (isRoot : Bool) (st : PackState) :
    Option (Option String × PackState) :=
  let rs := resolveStage fs lp fileName isRoot st
  -- line 236
  let objectPath : String := jsReplace (jsTrim (pathJoin rs.1.pfx rs.1.name)) "\\" "/"
  -- lines 238-240
  if jsFalsy rs.1.content then
    some (none, rs.2)
  else
    -- lines 242-244: newline normalisation (the source guards the replace
    -- with an indexOf test; the unguarded replace has the same value)
    let content := jsReplace (rs.1.content.getD "") "\r\n" "\n"
    -- line 246
    let header := if isRoot then "" else "0 FILE " ++ objectPath ++ "\n"
    finishDoc objectPath (processLinesF walk (jsSplitNl content) 0 isRoot header rs.2)

/-- `parseObject` (src/index.js lines 168-306), with fuel for the unbounded
recursion.  `none` means the fuel ran out. -/
def parseObject (fs : FS) (lp : String) :
    Nat → String → Bool → PackState → Option (Option String × PackState)
  | 0, _, _, _ => none
  | fuel + 1, fileName, isRoot, st =>
    parseObjectBody fs lp (fun nm s => parseObject fs lp fuel nm false s)
      fileName isRoot st

/-- The line-scan loop as it runs inside `parseObject` with the given fuel
left for recursive walks. -/
def processLines (fs : FS) (lp : String) (fuel : Nat) :
    List String → Nat → Bool → String → PackState → Option (String × PackState) :=
  processLinesF (fun nm s => parseObject fs lp fuel nm false s)

/-! ### Packer -/

/-- Fixed materials file name (src/index.js line 31). -/
def materialsFileName : String := "LDConfig.ldr"

/-- String concatenation of a list, front to back: the model of the
`packedContent +=` loop once the index order is accounted for. -/
def concatList : List String → String
  | [] => ""
  | s :: rest => s ++ concatList rest

/-- `packLDrawModel` (src/index.js lines 125-166).  The reverse-index loop of
lines 160-162 is `concatList` of the reversed contents list. -/
def packLDrawModel (fs : FS) (lp : String) (fuel : Nat) (fileName : String) :
    Option (Except String String) :=
  match FS.read fs (pathJoin lp materialsFileName) with
  | none =>
      some (Except.error
        ("Materials file not found: " ++ pathJoin lp materialsFileName))
  | some materialsContent =>
    match parseObject fs lp fuel fileName true ⟨[], [], [], []⟩ with
    | none => none
    | some (_, st) =>
      -- lines 145-156: the not-found check after the walk
      if st.listOfNotFound.any (fun n => PathMap.get st.pathMap n == "") then
        some (Except.error "Some files were not found during packing")
      else
        -- lines 158-165
        some (Except.ok
          (materialsContent ++ "\n" ++ concatList st.objectsContents.reverse ++ "\n"))

/-! ### Concrete fixtures used by counterexamples and witnesses -/

/-- Library with materials, a root model and one part under `parts/`. -/
def fsRound : FS :=
  [("ld/LDConfig.ldr", "M"),
   ("root.ldr", "1 16 0 0 0 1 0 0 0 1 0 0 0 1 b.dat"),
   ("ld/parts/b.dat", "2 x")]

/-- Library with materials and a root referencing the missing `x.dat`. -/
def fsMissingX : FS :=
  [("ld/LDConfig.ldr", "M"),
   ("rootA.ldr", "1 16 0 0 0 1 0 0 0 1 0 0 0 1 x.dat")]

/-- Library with materials and a root referencing the missing `y.dat`. -/
def fsMissingY : FS :=
  [("ld/LDConfig.ldr", "M"),
   ("rootB.ldr", "1 16 0 0 0 1 0 0 0 1 0 0 0 1 y.dat")]

/-- Library holding a file under the bare `48/` directory. -/
def fs48 : FS := [("ld/48/x.dat", "c")]

/-- Library with a non-root part whose first line is a self-declaration. -/
def fsDecl : FS := [("ld/a.dat", "0 FILE b.dat\n2 foo")]

/-- Placement line referencing the missing file `x.dat`. -/
def lineMissingX : String := "1 16 0 0 0 1 0 0 0 1 0 0 0 1 x.dat"

/-- Placement line referencing `b.dat` (the root line of `fsRound`). -/
def lineB : String := "1 16 0 0 0 1 0 0 0 1 0 0 0 1 b.dat"

/-- The state after the full walk of `fsRound` from `root.ldr`. -/
def stRound : PackState :=
  ⟨["parts/b.dat", "root.ldr"],
   ["0 FILE parts/b.dat\n2 x\n", "1 16 0 0 0 1 0 0 0 1 0 0 0 1 b.dat\n"],
   [("b.dat", "parts/b.dat")], []⟩

/-- The state after the full walk of `fsMissingX` from `rootA.ldr`. -/
def stMissX : PackState :=
  ⟨["rootA.ldr"], ["1 16 0 0 0 1 0 0 0 1 0 0 0 1 x.dat\n"], [], ["x.dat"]⟩

/-- The packed artifact produced from `fsRound`. -/
def packedRound : String :=
  "M\n1 16 0 0 0 1 0 0 0 1 0 0 0 1 b.dat\n0 FILE parts/b.dat\n2 x\n\n"

/-! ### Helper lemmas -/

theorem attemptReads_eq_spec (fs : FS) (lp n : String) :
    attemptReads fs lp n = readsThroughFirstHit fs (candidatePaths lp n) := by
  unfold attemptReads candidatePaths readsThroughFirstHit
  cases h1 : FS.read fs (pathJoin lp n) <;>
    cases h2 : FS.read fs (pathJoin3 lp "parts/" n) <;>
      cases h3 : FS.read fs (pathJoin3 lp "p/" n) <;>
        cases h4 : FS.read fs (pathJoin3 lp "models/" n) <;>
          simp [h1, h2, h3, h4, readsThroughFirstHit]

theorem tryAttempt_eq_none_iff (fs : FS) (lp n : String) :
    tryAttempt fs lp n = none ↔
      (candidatePaths lp n).all (fun p => (FS.read fs p).isNone) = true := by
  unfold tryAttempt candidatePaths
  cases h1 : FS.read fs (pathJoin lp n) <;>
    cases h2 : FS.read fs (pathJoin3 lp "parts/" n) <;>
      cases h3 : FS.read fs (pathJoin3 lp "p/" n) <;>
        cases h4 : FS.read fs (pathJoin3 lp "models/" n) <;>
          simp [h1, h2, h3, h4]

/-- A non-root walk whose two-pass search fails completely: the walker
returns `null`, pushes the original-case name once, and changes nothing
else. -/
theorem parseObject_unresolved (fs : FS) (lp : String) (fuel : Nat)
    (name : String) (st : PackState)
    (h1 : tryAttempt fs lp name = none)
    (h2 : tryAttempt fs lp (jsToLower name) = none) :
    parseObject fs lp (fuel + 1) name false st =
      some (none, { st with listOfNotFound := st.listOfNotFound ++ [name] }) := by
  simp [parseObject, parseObjectBody, resolveStage, searchLib, h1, h2, jsFalsy]

theorem PathMap.get_set_self (m : List (String × String)) (k v : String) :
    PathMap.get (PathMap.set m k v) k = v := by
  simp [PathMap.get, PathMap.set, List.find?]


/-! ### Claims -/

/-- C2: for every reference name resolved through the library search, the
resolver reads exactly the candidate locations `searchRoot/name`,
`searchRoot/parts/name`, `searchRoot/p/name`, `searchRoot/models/name`, in
that order, stopping at the first readable one, and it runs the whole
four-candidate sequence a second time with the name lowercased exactly when
every candidate of the first, original-case pass failed: the read trace of
the search loop coincides with the trace prescribed by the spec. -/
theorem C2_search_order (fs : FS) (lp name : String) :
    searchReads fs lp name = specSearchReads fs lp name := by
  unfold searchReads specSearchReads
  rw [attemptReads_eq_spec]
  cases h : tryAttempt fs lp name with
  | some v =>
    have hno : ¬((candidatePaths lp name).all fun p => (FS.read fs p).isNone) = true := by
      intro hall
      rw [← tryAttempt_eq_none_iff] at hall
      simp [hall] at h
    simp [hno]
  | none =>
    have hall := (tryAttempt_eq_none_iff fs lp name).mp h
    simp [hall, attemptReads_eq_spec]

/-- C3 counterexample: for the name `48/x.dat`, present only at the
unprefixed candidate `searchRoot/48/x.dat`, the successful read comes from
the `""` candidate, yet the resolver returns prefix `"p/"`, and the walker
records the canonical path `p/48/x.dat` — so the returned prefix is not the
one whose candidate location produced the read. -/
theorem C3_counterexample :
    FS.read fs48 (pathJoin "ld" "48/x.dat") = some "c" ∧
    tryAttempt fs48 "ld" "48/x.dat" = some ("c", "p/") ∧
    parseObject fs48 "ld" 1 "48/x.dat" false ⟨[], [], [], []⟩ =
      some (some "p/48/x.dat",
        ⟨["p/48/x.dat"], ["0 FILE p/48/x.dat\nc\n"], [], []⟩) ∧
    ("p/" : String) ≠ "" := by decide

/-- C3 (amended): when the library search succeeds, the prefix paired with
the name is the one of `""`, `parts/`, `p/`, `models/` whose candidate
produced the successful read, except that on a successful unprefixed read
the prefix is `p/` when the (possibly lowercased) name starts with `48/` and
`parts/` when it starts with `s/`. -/
theorem C3_amended_pfx_characterisation (fs : FS) (lp name c pfx : String)
    (h : tryAttempt fs lp name = some (c, pfx)) :
    (FS.read fs (pathJoin lp name) = some c ∧
      pfx = if jsStartsWith name "48/" then "p/"
            else if jsStartsWith name "s/" then "parts/" else "") ∨
    (FS.read fs (pathJoin lp name) = none ∧
      FS.read fs (pathJoin3 lp "parts/" name) = some c ∧ pfx = "parts/") ∨
    (FS.read fs (pathJoin lp name) = none ∧
      FS.read fs (pathJoin3 lp "parts/" name) = none ∧
      FS.read fs (pathJoin3 lp "p/" name) = some c ∧ pfx = "p/") ∨
    (FS.read fs (pathJoin lp name) = none ∧
      FS.read fs (pathJoin3 lp "parts/" name) = none ∧
      FS.read fs (pathJoin3 lp "p/" name) = none ∧
      FS.read fs (pathJoin3 lp "models/" name) = some c ∧ pfx = "models/") := by
  unfold tryAttempt at h
  cases h1 : FS.read fs (pathJoin lp name) <;>
    cases h2 : FS.read fs (pathJoin3 lp "parts/" name) <;>
      cases h3 : FS.read fs (pathJoin3 lp "p/" name) <;>
        cases h4 : FS.read fs (pathJoin3 lp "models/" name) <;>
          simp [h1, h2, h3, h4] at h <;> simp_all

/-- C3 witness: the amended characterisation applied at a file found under
`parts/`. -/
theorem C3_witness :
    tryAttempt fsRound "ld" "b.dat" = some ("2 x", "parts/") ∧
    ((FS.read fsRound (pathJoin "ld" "b.dat") = some "2 x" ∧
      ("parts/" : String) = if jsStartsWith "b.dat" "48/" then "p/"
            else if jsStartsWith "b.dat" "s/" then "parts/" else "") ∨
    (FS.read fsRound (pathJoin "ld" "b.dat") = none ∧
      FS.read fsRound (pathJoin3 "ld" "parts/" "b.dat") = some "2 x" ∧
      ("parts/" : String) = "parts/") ∨
    (FS.read fsRound (pathJoin "ld" "b.dat") = none ∧
      FS.read fsRound (pathJoin3 "ld" "parts/" "b.dat") = none ∧
      FS.read fsRound (pathJoin3 "ld" "p/" "b.dat") = some "2 x" ∧
      ("parts/" : String) = "p/") ∨
    (FS.read fsRound (pathJoin "ld" "b.dat") = none ∧
      FS.read fsRound (pathJoin3 "ld" "parts/" "b.dat") = none ∧
      FS.read fsRound (pathJoin3 "ld" "p/" "b.dat") = none ∧
      FS.read fsRound (pathJoin3 "ld" "models/" "b.dat") = some "2 x" ∧
      ("parts/" : String) = "models/")) :=
  ⟨by decide, C3_amended_pfx_characterisation fsRound "ld" "b.dat" "2 x" "parts/" (by decide)⟩

/-- C9: a non-root walk invocation whose reference fails both search passes
returns `null` and leaves the discovered-paths sequence, the
discovered-contents sequence and the resolution map unchanged; the only state
change is appending the original-case name to the not-found list, once. -/
theorem C9_unresolved_state (fs : FS) (lp : String) (fuel : Nat)
    (name : String) (st : PackState)
    (h1 : tryAttempt fs lp name = none)
    (h2 : tryAttempt fs lp (jsToLower name) = none) :
    parseObject fs lp (fuel + 1) name false st =
      some (none, { st with listOfNotFound := st.listOfNotFound ++ [name] }) :=
  parseObject_unresolved fs lp fuel name st h1 h2

/-- C9 witness: the empty library resolves nothing; the walk on `X.dat`
returns `null` and only appends `X.dat` to the not-found list. -/
theorem C9_witness :
    tryAttempt [] "ld" "X.dat" = none ∧
    tryAttempt [] "ld" (jsToLower "X.dat") = none ∧
    parseObject [] "ld" 3 "X.dat" false ⟨["p0"], ["c0"], [("k", "v")], ["n0"]⟩ =
      some (none, ⟨["p0"], ["c0"], [("k", "v")], ["n0", "X.dat"]⟩) :=
  ⟨by decide, by decide,
    C9_unresolved_state [] "ld" 2 "X.dat" ⟨["p0"], ["c0"], [("k", "v")], ["n0"]⟩
      (by decide) (by decide)⟩

/-- C10: a failed resolution is never cached: a placement line whose
reference fails both passes leaves the resolution map unchanged, so a second
identical placement line repeats the full search and appends the same
original-case name to the not-found list again — the list can contain
duplicates. -/
theorem C10_no_negative_caching (fs : FS) (lp : String) (fuel : Nat)
    (line sub : String) (i : Nat) (isRoot : Bool) (acc : String) (st : PackState)
    (h0 : jsStartsWith (stripLead line) "0 FILE " = false)
    (h1 : jsStartsWith (stripLead line) "1 " = true)
    (htok : (tokensOf (stripLead line)).length ≥ 15)
    (hsub : subNameOf (stripLead line) = sub)
    (hne : sub ≠ "")
    (hmap : PathMap.get st.pathMap sub = "")
    (hf1 : tryAttempt fs lp sub = none)
    (hf2 : tryAttempt fs lp (jsToLower sub) = none) :
    processLines fs lp (fuel + 1) [line, line] i isRoot acc st =
      some (acc ++ stripLead line ++ "\n" ++ stripLead line ++ "\n",
        { st with listOfNotFound := st.listOfNotFound ++ [sub, sub] }) := by
  have hw := parseObject_unresolved fs lp fuel sub st hf1 hf2
  have hw2 := parseObject_unresolved fs lp fuel sub
    { st with listOfNotFound := st.listOfNotFound ++ [sub] } hf1 hf2
  simp [processLines, processLinesF, h0, h1, htok, hsub, hne, hmap, hw, hw2,
    List.append_assoc]

/-- C10 witness: the same missing reference on two consecutive placement
lines is searched twice and recorded twice in the not-found list. -/
theorem C10_witness :
    processLines [] "ld" 1 [lineMissingX, lineMissingX] 0 false "" ⟨[], [], [], []⟩ =
      some ("" ++ stripLead lineMissingX ++ "\n" ++ stripLead lineMissingX ++ "\n",
        ⟨[], [], [], ["x.dat", "x.dat"]⟩) :=
  C10_no_negative_caching [] "ld" 0 lineMissingX "x.dat" 0 false "" ⟨[], [], [], []⟩
    (by decide) (by decide) (by decide) (by decide) (by decide) (by decide)
    (by decide) (by decide)


/-- C6 counterexample: for a *non-root* file whose very first line is the
self-declaration `0 FILE b.dat`, the claim requires the line to be passed
through into the rewritten output and `b.dat` to be registered in the
resolution map; the code instead drops the line (the rewritten content is
only the walker-supplied header plus the remaining line) and registers
nothing. -/
theorem C6_counterexample :
    parseObject fsDecl "ld" 2 "a.dat" false ⟨[], [], [], []⟩ =
      some (some "a.dat", ⟨["a.dat"], ["0 FILE a.dat\n2 foo\n"], [], []⟩) ∧
    PathMap.get ([] : List (String × String)) "b.dat" ≠ "b.dat" := by decide

/-- C6 (amended): during the line scan a self-declaration line is dropped
from the rewritten output whenever it is the very first line of the file's
own content, for root and non-root files alike; for any later occurrence the
declared sub-name is registered as resolved-in-place when not already
present and the line is passed through. -/
theorem C6_amended_self_declaration (fs : FS) (lp : String) (fuel : Nat)
    (line : String) (rest : List String) (i : Nat) (isRoot : Bool)
    (acc : String) (st : PackState)
    (hf : jsStartsWith (stripLead line) "0 FILE " = true) :
    (i = 0 → processLines fs lp fuel (line :: rest) i isRoot acc st =
      processLines fs lp fuel rest (i + 1) isRoot acc st) ∧
    (i ≠ 0 → processLines fs lp fuel (line :: rest) i isRoot acc st =
      processLines fs lp fuel rest (i + 1) isRoot (acc ++ stripLead line ++ "\n")
        (if declNameOf (stripLead line) ≠ "" ∧
            PathMap.get st.pathMap (declNameOf (stripLead line)) = "" then
          { st with pathMap := PathMap.set st.pathMap (declNameOf (stripLead line)) (declNameOf (stripLead line)) }
        else st)) := by
  constructor
  · intro hi
    subst hi
    simp [processLines, processLinesF, hf]
  · intro hi
    simp [processLines, processLinesF, hf, hi]

/-- C6 witness: the amended statement applied at a concrete non-root scan —
at line index 0 the self-declaration is dropped, at index 1 it is kept and
`b.dat` registered. -/
theorem C6_witness :
    (processLines [] "ld" 1 ["0 FILE b.dat"] 0 false "H" ⟨[], [], [], []⟩ =
      some ("H", ⟨[], [], [], []⟩)) ∧
    (processLines [] "ld" 1 ["0 FILE b.dat"] 1 false "H" ⟨[], [], [], []⟩ =
      some ("H" ++ "0 FILE b.dat" ++ "\n", ⟨[], [], [("b.dat", "b.dat")], []⟩)) := by
  constructor
  · rw [(C6_amended_self_declaration [] "ld" 1 "0 FILE b.dat" [] 0 false "H"
      ⟨[], [], [], []⟩ (by decide)).1 rfl]
    decide
  · rw [(C6_amended_self_declaration [] "ld" 1 "0 FILE b.dat" [] 1 false "H"
      ⟨[], [], [], []⟩ (by decide)).2 (by decide)]
    decide

/-- C7: a placement line with fewer than fourteen fields after the `1`
marker (fewer than fifteen tokens in total) triggers no resolution attempt
and no error: the scan moves on with the stripped line appended to the
rewritten output and the state unchanged. -/
theorem C7_malformed_passthrough (fs : FS) (lp : String) (fuel : Nat)
    (line : String) (rest : List String) (i : Nat) (isRoot : Bool)
    (acc : String) (st : PackState)
    (h0 : jsStartsWith (stripLead line) "0 FILE " = false)
    (h1 : jsStartsWith (stripLead line) "1 " = true)
    (htok : (tokensOf (stripLead line)).length < 15) :
    processLines fs lp fuel (line :: rest) i isRoot acc st =
      processLines fs lp fuel rest (i + 1) isRoot (acc ++ stripLead line ++ "\n") st := by
  have hlt : ¬(tokensOf (stripLead line)).length ≥ 15 := by omega
  simp [processLines, processLinesF, h0, h1, hlt]

/-- C7 witness: the three-token placement line `1 16 x` passes through with
no state change. -/
theorem C7_witness :
    processLines [] "ld" 1 ["1 16 x"] 0 false "A" ⟨[], [], [], []⟩ =
      some ("A" ++ "1 16 x" ++ "\n", ⟨[], [], [], []⟩) := by
  rw [C7_malformed_passthrough [] "ld" 1 "1 16 x" [] 0 false "A" ⟨[], [], [], []⟩
    (by decide) (by decide) (by decide)]
  decide

/-- C8: within one pack, the first resolution of a reference name performs
the search and registers the returned canonical path in the resolution map;
a later placement line with the same name is answered by the map — the
walker is not invoked again (hence no further filesystem search), the state
is unchanged, and the canonical path recorded for the name is still the one
the first resolution stored. -/
theorem C8_map_hit (fs : FS) (lp : String) (fuel : Nat)
    (line sub : String) (rest : List String) (i : Nat) (isRoot : Bool)
    (acc : String) (st : PackState)
    (h0 : jsStartsWith (stripLead line) "0 FILE " = false)
    (h1 : jsStartsWith (stripLead line) "1 " = true)
    (htok : (tokensOf (stripLead line)).length ≥ 15)
    (hsub : subNameOf (stripLead line) = sub) :
    (∀ p st', PathMap.get st.pathMap sub = "" → sub ≠ "" → p ≠ "" →
      parseObject fs lp fuel sub false st = some (some p, st') →
      processLines fs lp fuel (line :: rest) i isRoot acc st =
        processLines fs lp fuel rest (i + 1) isRoot (acc ++ stripLead line ++ "\n")
          { st' with pathMap := PathMap.set st'.pathMap sub p } ∧
      PathMap.get (PathMap.set st'.pathMap sub p) sub = p) ∧
    (PathMap.get st.pathMap sub ≠ "" →
      processLines fs lp fuel (line :: rest) i isRoot acc st =
        processLines fs lp fuel rest (i + 1) isRoot (acc ++ stripLead line ++ "\n") st) := by
  constructor
  · intro p st' hmap hne hp hwalk
    constructor
    · simp [processLines, processLinesF, h0, h1, htok, hsub, hne, hmap, hwalk, hp]
    · exact PathMap.get_set_self st'.pathMap sub p
  · intro hmap
    simp [processLines, processLinesF, h0, h1, htok, hsub, hmap]

/-- C8 witness: first occurrence of `b.dat` searches and registers
`parts/b.dat`; with the map already holding `b.dat`, the same line is
answered from the map with no walk and no state change. -/
theorem C8_witness :
    (processLines fsRound "ld" 1 [lineB] 0 true "" ⟨[], [], [], []⟩ =
      processLines fsRound "ld" 1 [] 1 true ("" ++ stripLead lineB ++ "\n")
        ⟨["parts/b.dat"], ["0 FILE parts/b.dat\n2 x\n"],
          [("b.dat", "parts/b.dat")], []⟩ ∧
      PathMap.get [("b.dat", "parts/b.dat")] "b.dat" = "parts/b.dat") ∧
    (processLines fsRound "ld" 1 [lineB] 0 true ""
        ⟨[], [], [("b.dat", "parts/b.dat")], []⟩ =
      processLines fsRound "ld" 1 [] 1 true ("" ++ stripLead lineB ++ "\n")
        ⟨[], [], [("b.dat", "parts/b.dat")], []⟩) :=
  ⟨(C8_map_hit fsRound "ld" 1 lineB "b.dat" [] 0 true "" ⟨[], [], [], []⟩
      (by decide) (by decide) (by decide) (by decide)).1 "parts/b.dat"
      ⟨["parts/b.dat"], ["0 FILE parts/b.dat\n2 x\n"], [], []⟩
      (by decide) (by decide) (by decide) (by decide),
   (C8_map_hit fsRound "ld" 1 lineB "b.dat" [] 0 true ""
      ⟨[], [], [("b.dat", "parts/b.dat")], []⟩
      (by decide) (by decide) (by decide) (by decide)).2 (by decide)⟩

theorem finishDoc_success (q : String) (o : Option (String × PackState))
    (p : String) (st' : PackState) (h : finishDoc q o = some (some p, st')) :
    ∃ (stMid : PackState) (doc : String),
      st'.objectsPaths = stMid.objectsPaths ++ [p] ∧
      st'.objectsContents = stMid.objectsContents ++ [doc] := by
  cases o with
  | none => simp [finishDoc] at h
  | some pr =>
    obtain ⟨processed, st2⟩ := pr
    simp only [finishDoc, Option.some.injEq, Prod.mk.injEq] at h
    obtain ⟨hp, hst⟩ := h
    subst hst
    refine ⟨st2, processed, ?_, ?_⟩ <;> simp [hp]

/-- A walker call that returns a canonical path appends exactly one document
at the end of the discovered sequences: its own, after all children
(post-order, src/index.js lines 302-305). -/
theorem parseObjectBody_success (fs : FS) (lp : String)
    (walk : String → PackState → Option (Option String × PackState))
    (fileName : String) (isRoot : Bool) (st : PackState) (p : String)
    (st' : PackState)
    (h : parseObjectBody fs lp walk fileName isRoot st = some (some p, st')) :
    ∃ (stMid : PackState) (doc : String),
      st'.objectsPaths = stMid.objectsPaths ++ [p] ∧
      st'.objectsContents = stMid.objectsContents ++ [doc] := by
  simp only [parseObjectBody] at h
  split at h
  · simp at h
  · exact finishDoc_success _ _ _ _ h

/-- C1 counterexample: on a concrete successful pack the artifact is the
materials content, a separating newline emitted at src/index.js line 159,
the documents in reverse append order, and a trailing newline; the claim's
formula — materials content directly followed by the reversed documents and
a trailing newline — differs from the artifact by that separating newline. -/
theorem C1_counterexample :
    packLDrawModel fsRound "ld" 5 "root.ldr" = some (Except.ok packedRound) ∧
    parseObject fsRound "ld" 5 "root.ldr" true ⟨[], [], [], []⟩ =
      some (some "root.ldr", stRound) ∧
    packedRound ≠ "M" ++ concatList stRound.objectsContents.reverse ++ "\n" := by
  decide

/-- C1 (amended): for every successful pack the artifact equals the
materials content, a separating newline, then the rewritten contents of all
discovered documents concatenated in the reverse of the append order, with a
trailing newline; and because each document is appended only after recursion
on its children completed (post-order), whenever the root walk returned a
canonical path the root's own document was appended last and appears first
after the materials block. -/
theorem C1_amended_pack_layout (fs : FS) (lp f m s : String) (fuel : Nat)
    (r : Option String) (st : PackState)
    (hm : FS.read fs (pathJoin lp materialsFileName) = some m)
    (hwalk : parseObject fs lp fuel f true ⟨[], [], [], []⟩ = some (r, st))
    (hok : packLDrawModel fs lp fuel f = some (Except.ok s)) :
    s = m ++ "\n" ++ concatList st.objectsContents.reverse ++ "\n" ∧
    (∀ p, r = some p →
      st.objectsContents ≠ [] ∧
      st.objectsPaths.getLast? = some p ∧
      s = m ++ "\n" ++ (st.objectsContents.getLast?.getD "") ++
        concatList st.objectsContents.dropLast.reverse ++ "\n") := by
  simp only [packLDrawModel, hm, hwalk] at hok
  by_cases hnf : st.listOfNotFound.any (fun n => PathMap.get st.pathMap n == "") = true
  · simp [hnf] at hok
  · simp only [hnf, if_neg, Bool.false_eq_true, if_false, Option.some.injEq,
      Except.ok.injEq] at hok
    subst hok
    refine ⟨rfl, ?_⟩
    intro p hp
    subst hp
    cases fuel with
    | zero => simp [parseObject] at hwalk
    | succ n =>
      simp only [parseObject] at hwalk
      obtain ⟨stMid, doc, hpaths, hcontents⟩ :=
        parseObjectBody_success _ _ _ _ _ _ _ _ hwalk
      refine ⟨?_, ?_, ?_⟩
      · rw [hcontents]; simp
      · rw [hpaths]; simp
      · rw [hcontents]
        simp [List.reverse_append, concatList, String.append_assoc]

/-- C1 witness: the amended layout applied to the concrete round-trip pack —
the root document `root.ldr`, appended last during the walk, appears first
after the materials block and its separating newline. -/
theorem C1_witness :
    (packedRound = "M" ++ "\n" ++ concatList stRound.objectsContents.reverse ++ "\n") ∧
    stRound.objectsContents ≠ [] ∧
    stRound.objectsPaths.getLast? = some "root.ldr" ∧
    packedRound = "M" ++ "\n" ++ (stRound.objectsContents.getLast?.getD "") ++
      concatList stRound.objectsContents.dropLast.reverse ++ "\n" :=
  ⟨(C1_amended_pack_layout fsRound "ld" "root.ldr" "M" packedRound 5
      (some "root.ldr") stRound (by decide) (by decide) (by decide)).1,
   (C1_amended_pack_layout fsRound "ld" "root.ldr" "M" packedRound 5
      (some "root.ldr") stRound (by decide) (by decide) (by decide)).2 "root.ldr" rfl⟩

/-- C4: `pack` fails when the materials file cannot be loaded, with a result
that does not depend on the root file (no walk is performed); with materials
present, once the walk completed the pack fails exactly when some entry of
the not-found list is still absent from the resolution map, and on failure
the result is an error carrying no packed artifact. -/
theorem C4_pack_failure_conditions (fs : FS) (lp : String) (fuel : Nat)
    (f g : String) :
    (FS.read fs (pathJoin lp materialsFileName) = none →
      packLDrawModel fs lp fuel f =
        some (Except.error
          ("Materials file not found: " ++ pathJoin lp materialsFileName)) ∧
      packLDrawModel fs lp fuel f = packLDrawModel fs lp fuel g) ∧
    (∀ m r st, FS.read fs (pathJoin lp materialsFileName) = some m →
      parseObject fs lp fuel f true ⟨[], [], [], []⟩ = some (r, st) →
      ((∃ e, packLDrawModel fs lp fuel f = some (Except.error e)) ↔
        ∃ n, n ∈ st.listOfNotFound ∧ PathMap.get st.pathMap n = "")) := by
  constructor
  · intro hm
    unfold packLDrawModel
    rw [hm]
    exact ⟨rfl, rfl⟩
  · intro m r st hm hw
    simp only [packLDrawModel, hm, hw]
    by_cases hnf : st.listOfNotFound.any (fun n => PathMap.get st.pathMap n == "") = true
    · constructor
      · intro _
        rw [List.any_eq_true] at hnf
        obtain ⟨n, hn, hp⟩ := hnf
        exact ⟨n, hn, by simpa using hp⟩
      · intro _
        rw [if_pos hnf]
        exact ⟨_, rfl⟩
    · constructor
      · intro he
        rw [if_neg hnf] at he
        obtain ⟨e, he⟩ := he
        simp at he
      · intro hex
        obtain ⟨n, hn, hget⟩ := hex
        exact absurd (List.any_eq_true.mpr ⟨n, hn, by simp [hget]⟩) hnf

/-- C4 witness: the two failure conditions applied at concrete inputs — an
empty library fails with the materials error independently of the root file,
and the round-trip pack's failure condition matches its not-found list. -/
theorem C4_witness :
    (packLDrawModel [] "ld" 1 "a.ldr" =
      some (Except.error
        ("Materials file not found: " ++ pathJoin "ld" materialsFileName)) ∧
     packLDrawModel [] "ld" 1 "a.ldr" = packLDrawModel [] "ld" 1 "b.ldr") ∧
    ((∃ e, packLDrawModel fsRound "ld" 5 "root.ldr" = some (Except.error e)) ↔
      ∃ n, n ∈ stRound.listOfNotFound ∧ PathMap.get stRound.pathMap n = "") :=
  ⟨(C4_pack_failure_conditions [] "ld" 1 "a.ldr" "b.ldr").1 (by decide),
   (C4_pack_failure_conditions fsRound "ld" 5 "root.ldr" "root.ldr").2 "M"
     (some "root.ldr") stRound (by decide) (by decide)⟩

/-- C5 counterexample: two packs whose sets of missing references differ
(`x.dat` versus `y.dat`) surface the identical fixed failure value, so the
failure surfaced to the caller cannot report the set of missing names — they
are only logged server-side (src/index.js line 150). -/
theorem C5_counterexample :
    packLDrawModel fsMissingX "ld" 5 "rootA.ldr" =
      some (Except.error "Some files were not found during packing") ∧
    packLDrawModel fsMissingY "ld" 5 "rootB.ldr" =
      some (Except.error "Some files were not found during packing") := by
  decide

/-- C5 (amended): when a pack fails because references are missing, the
failure surfaced to the caller is the fixed message
`Some files were not found during packing`, independent of which and how
many references are missing; the complete set of missing names is only
written to the server log. -/
theorem C5_amended_constant_error (fs : FS) (lp f m : String) (fuel : Nat)
    (r : Option String) (st : PackState)
    (hm : FS.read fs (pathJoin lp materialsFileName) = some m)
    (hw : parseObject fs lp fuel f true ⟨[], [], [], []⟩ = some (r, st))
    (hnf : st.listOfNotFound.any (fun n => PathMap.get st.pathMap n == "") = true) :
    packLDrawModel fs lp fuel f =
      some (Except.error "Some files were not found during packing") := by
  simp [packLDrawModel, hm, hw, hnf]

/-- C5 witness: the constant failure message on the concrete pack missing
`x.dat`. -/
theorem C5_witness :
    packLDrawModel fsMissingX "ld" 5 "rootA.ldr" =
      some (Except.error "Some files were not found during packing") :=
  C5_amended_constant_error fsMissingX "ld" "rootA.ldr" "M" 5 (some "rootA.ldr")
    stMissX (by decide) (by decide) (by decide)
